import Mathlib

/-!
Verification development for the DraftBot draft-session orchestration engine.

The definitions below are shallow embeddings of the Python source:
* `src/main.py` — `DraftSession` (pairing generation, match-result
  reporting and aggregation, ready checks, sign-ups) and the module-level
  session registry (`add_session`).
* `src/services/draft_setup_manager.py` — the `exponential_backoff`
  retry decorator and `DraftSetupManager.keep_connection_alive`.

Python dicts are embedded as association lists in insertion order
(CPython dicts preserve insertion order); machine integers are `Nat`/`Int`;
fallible operations return `Except`.
-/

set_option synthInstance.maxSize 1000

instance {ε α : Type} [DecidableEq ε] [DecidableEq α] : DecidableEq (Except ε α) := fun a b =>
  match a, b with
  | .ok x, .ok y =>
      if h : x = y then .isTrue (by rw [h]) else .isFalse (fun c => h (Except.ok.inj c))
  | .error e, .error f =>
      if h : e = f then .isTrue (by rw [h]) else .isFalse (fun c => h (Except.error.inj c))
  | .ok _, .error _ => .isFalse (fun c => Except.noConfusion c)
  | .error _, .ok _ => .isFalse (fun c => Except.noConfusion c)

namespace DraftBot

/-- One entry of `DraftSession.match_results` (src/main.py, built at
lines 249-253): player ids, win counts, and the optional winner id. -/
structure MatchResult where
  player1_id : Nat
  player1_wins : Nat
  player2_id : Nat
  player2_wins : Nat
  winner_id : Option Nat
deriving Repr, DecidableEq

/-- The mutable state of a `DraftSession` (src/main.py lines 28-51)
restricted to the fields the verified operations read or write.
`ready_*` are the three buckets of `ready_check_status`; message and
channel bookkeeping fields are omitted (no verified operation touches
them). Dict-valued fields are association lists in insertion order. -/
structure SessionState where
  team_a : List Nat
  team_b : List Nat
  match_counter : Nat
  match_results : List (Nat × MatchResult)
  matches_dict : List (Nat × (Nat × Nat))
  sign_ups : List (Nat × String)
  ready_ready : List Nat
  ready_not_ready : List Nat
  ready_no_response : List Nat
deriving Repr, DecidableEq

/-- Python `d[k] = v` on a dict embedded as an association list:
update in place if the key is present, otherwise append. -/
def dictInsert {β : Type} (d : List (Nat × β)) (k : Nat) (v : β) : List (Nat × β) :=
  if d.any (fun p => p.1 = k) then
    d.map (fun p => if p.1 = k then (k, v) else p)
  else
    d ++ [(k, v)]

/-- Python `d.get(k)` on a dict embedded as an association list. -/
def dictGet {β : Type} (d : List (Nat × β)) (k : Nat) : Option β :=
  match d.find? (fun p => p.1 = k) with
  | some p => some p.2
  | none => none

/-- A freshly generated match-result entry as written by
`calculate_pairings` (src/main.py lines 249-253): both win counts 0,
no winner yet. -/
def mkResult (player_a player_b : Nat) : MatchResult :=
  { player1_id := player_a, player1_wins := 0
    player2_id := player_b, player2_wins := 0
    winner_id := none }

/-- One iteration of the inner loop of `calculate_pairings`
(src/main.py lines 243-256): for index `i`, pair `team_a[i]` with
`team_b[(i + round - 1) % len(team_b)]`, record the match under the
current `match_counter`, and append the pairing to the round list. -/
def pairStep (round : Nat) (acc : SessionState × List (Nat × Nat × Nat)) (i : Nat) :
    SessionState × List (Nat × Nat × Nat) :=
  let st := acc.1
  let player_a := st.team_a.getD i 0
  let player_b := st.team_b.getD ((i + round - 1) % st.team_b.length) 0
  let m := st.match_counter
  ({ st with
      matches_dict := dictInsert st.matches_dict m (player_a, player_b)
      match_results := dictInsert st.match_results m (mkResult player_a player_b)
      match_counter := m + 1 },
   acc.2 ++ [(player_a, player_b, m)])

/-- One round of `calculate_pairings` (src/main.py lines 241-258): the
loop `for i, player_a in enumerate(self.team_a)` threading the session
state and accumulating `round_pairings`. -/
def doRound (round : Nat) (st : SessionState) : SessionState × List (Nat × Nat × Nat) :=
  (List.range st.team_a.length).foldl (pairStep round) (st, [])

/-- Errors raised by `calculate_pairings`: the explicit
`ValueError("Unsupported number of players...")` at line 233 and the
`assert len(self.team_a) == len(self.team_b)` at line 235. -/
inductive PairError where
  | unsupportedPlayerCount
  | unequalTeams
deriving Repr, DecidableEq

/-- `DraftSession.calculate_pairings` (src/main.py lines 230-260):
raises unless the total player count is 6 or 8 and the teams have equal
size; otherwise resets `match_results`, runs rounds 1, 2, 3
(`for round in range(1, 4)`), and returns the pairings dictionary
`{1: ..., 2: ..., 3: ...}` together with the mutated session state. -/
def calculatePairings (s : SessionState) :
    Except PairError (List (Nat × List (Nat × Nat × Nat)) × SessionState) :=
  let numPlayers := s.team_a.length + s.team_b.length
  if numPlayers = 6 ∨ numPlayers = 8 then
    if s.team_a.length = s.team_b.length then
      let s0 := { s with match_results := [] }
      let r1 := doRound 1 s0
      let r2 := doRound 2 r1.1
      let r3 := doRound 3 r2.1
      .ok ([(1, r1.2), (2, r2.2), (3, r3.2)], r3.1)
    else .error .unequalTeams
  else .error .unsupportedPlayerCount

/-- The session state seen by the caller after `calculate_pairings`:
on a raised error the Python object was not yet mutated (the checks at
lines 231-235 precede every assignment), so the caller keeps `s`. -/
def applyCalculatePairings (s : SessionState) : SessionState :=
  match calculatePairings s with
  | .ok r => r.2
  | .error _ => s

/-- `DraftSession.calculate_team_wins` (src/main.py lines 458-477):
fold over `match_results`; a match with strictly more player-1 wins
credits team A when `player1_id in team_a` and team B otherwise, and
symmetrically for player 2; equal win counts credit neither side.
`winner_id` is never read. -/
def calculateTeamWins (s : SessionState) : Nat × Nat :=
  s.match_results.foldl
    (fun acc p =>
      let m := p.2
      if m.player1_wins > m.player2_wins then
        if s.team_a.contains m.player1_id then (acc.1 + 1, acc.2) else (acc.1, acc.2 + 1)
      else if m.player2_wins > m.player1_wins then
        if s.team_a.contains m.player2_id then (acc.1 + 1, acc.2) else (acc.1, acc.2 + 1)
      else acc)
    (0, 0)

/-- The five result options offered by `MatchResultSelect`
(src/main.py lines 565-571), as parsed by its callback from the
`"p1wins-p2wins-winner"` strings: `(player1_wins, player2_wins, winner)`
with `winner = 1` for player 1, `2` for player 2, `0` for
"No Match Played". -/
def matchResultOptions : List (Nat × Nat × Nat) :=
  [(2, 0, 1), (2, 1, 1), (0, 2, 2), (1, 2, 2), (0, 0, 0)]

/-- `DraftSession.MatchResultSelect.callback` (src/main.py lines
577-597), state-mutating core: look up the match, overwrite both win
counts, and set `winner_id` only when `winner != 0` (a `winner = 0`
report leaves any previous `winner_id` in place). Returns the updated
state and whether the match entry was found. -/
def reportResult (s : SessionState) (matchNumber p1wins p2wins winner : Nat) :
    SessionState × Bool :=
  match dictGet s.match_results matchNumber with
  | none => (s, false)
  | some m =>
      let m1 := { m with player1_wins := p1wins, player2_wins := p2wins }
      let m2 :=
        if winner ≠ 0 then
          { m1 with winner_id := some (if winner = 1 then m1.player1_id else m1.player2_id) }
        else m1
      ({ s with match_results := dictInsert s.match_results matchNumber m2 }, true)

/-- Errors surfaced by `PersistentView.sign_up_callback`
(src/main.py lines 686-709): full list, or the user already present. -/
inductive SignUpError where
  | full
  | alreadySignedUp
deriving Repr, DecidableEq

/-- `PersistentView.sign_up_callback` (src/main.py lines 686-709; the
same guard order appears in src/views.py lines 47-67): refuse when
`len(sign_ups) >= 8`, then refuse when the user is already signed up,
otherwise record `sign_ups[user_id] = display_name`. -/
def signUp (s : SessionState) (userId : Nat) (userName : String) :
    Except SignUpError SessionState :=
  if s.sign_ups.length ≥ 8 then .error .full
  else if s.sign_ups.any (fun p => p.1 = userId) then .error .alreadySignedUp
  else .ok { s with sign_ups := dictInsert s.sign_ups userId userName }

/-- The sign-up mapping the caller observes after a sign-up attempt:
both refusals return before any mutation, so on error the caller keeps
`s`. -/
def applySignUp (s : SessionState) (userId : Nat) (userName : String) : SessionState :=
  match signUp s userId userName with
  | .ok s' => s'
  | .error _ => s

/-- `DraftSession.initiate_ready_check` (src/main.py lines 96-118),
state-mutating core: unconditionally overwrite
`ready_check_status["no_response"]` with `list(self.sign_ups.keys())`.
The method has no guard against re-invocation and never touches the
`ready` and `not_ready` buckets (the only at-most-once protection is
the caller disabling the UI button, src/main.py lines 776-779). -/
def initiateReadyCheck (s : SessionState) : SessionState :=
  { s with ready_no_response := s.sign_ups.map Prod.fst }

/-- `DraftSession.handle_ready_interaction` (src/main.py lines 63-72):
move the user out of `not_ready` and `no_response` (first occurrence,
as `list.remove`) and append them to `ready` unless already there. -/
def handleReadyInteraction (s : SessionState) (userId : Nat) : SessionState :=
  let notReady :=
    if s.ready_not_ready.contains userId then s.ready_not_ready.erase userId
    else s.ready_not_ready
  let ready :=
    if s.ready_ready.contains userId then s.ready_ready else s.ready_ready ++ [userId]
  let noResponse :=
    if s.ready_no_response.contains userId then s.ready_no_response.erase userId
    else s.ready_no_response
  { s with ready_ready := ready, ready_not_ready := notReady,
           ready_no_response := noResponse }

/-- A session identifier as built by `start_draft` / `premade_draft`
(src/main.py lines 1014, 1059): the string
`f"{interaction.user.id}-{int(draft_start_time)}"`, embedded as its two
numeric components, so that Python's `int(x.split('-')[-1])`
(src/main.py line 1121) is the `ts` field. -/
structure SessionId where
  uid : Nat
  ts : Nat
deriving Repr, DecidableEq

/-- Python `dict.pop(k)`'s effect on the mapping, for a dict embedded
as an association list with unique keys: drop the entry for `k`. -/
def regErase (reg : List (SessionId × SessionState)) (k : SessionId) :
    List (SessionId × SessionState) :=
  reg.filter (fun p => p.1 ≠ k)

/-- Stable insertion into a timestamp-sorted key list: a key goes
after every strictly smaller timestamp and before equal ones it
preceded in the original list (matching the stability of Python's
`sorted`). -/
def insertByTs (k : SessionId) : List SessionId → List SessionId
  | [] => [k]
  | x :: xs => if x.ts < k.ts then x :: insertByTs k xs else k :: x :: xs

/-- A stable sort by embedded timestamp, extensionally equal to
Python's (stable) `sorted(keys, key=lambda x: int(x.split('-')[-1]))`. -/
def sortByTs : List SessionId → List SessionId
  | [] => []
  | k :: ks => insertByTs k (sortByTs ks)

/-- `sorted(sessions.keys(), key=lambda x: int(x.split('-')[-1]))[0]`
(src/main.py line 1121): the first key of the registry under a stable
sort by embedded timestamp (`none` for an empty registry). -/
def oldestSessionId (reg : List (SessionId × SessionState)) : Option SessionId :=
  (sortByTs (reg.map Prod.fst)).head?

/-- Python `d[k] = v` on the registry (same semantics as `dictInsert`,
with `SessionId` keys). -/
def regInsert (reg : List (SessionId × SessionState)) (k : SessionId) (v : SessionState) :
    List (SessionId × SessionState) :=
  if reg.any (fun p => p.1 = k) then
    reg.map (fun p => if p.1 = k then (k, v) else p)
  else
    reg ++ [(k, v)]

/-- `add_session` (src/main.py lines 1115-1133): when the registry
already holds at least 20 sessions, pop the session whose id embeds the
earliest timestamp (channel cleanup for it is fire-and-forget side
I/O), then store the new session under its id. -/
def addSession (reg : List (SessionId × SessionState)) (sessionId : SessionId)
    (session : SessionState) : List (SessionId × SessionState) :=
  let reg' :=
    if reg.length ≥ 20 then
      match oldestSessionId reg with
      | some oldest => regErase reg oldest
      | none => reg
    else reg
  regInsert reg' sessionId session

end DraftBot

namespace DraftBot

/-! ## Keep-alive connector (src/services/draft_setup_manager.py) -/

/-- Observable actions of one `keep_connection_alive` task, in order:
the websocket connect, each `importCube` emission (tagged with its
0-based retry counter), each backoff or poll sleep (duration in
seconds), each `getUsers` emission, and the final disconnect. -/
inductive ConnAction where
  | connect
  | emitImport (retries : Nat)
  | sleepFor (seconds : ℚ)
  | emitGetUsers
  | disconnect
deriving Repr, DecidableEq

/-- The `while retries < max_retries` loop of the `exponential_backoff`
decorator (src/services/draft_setup_manager.py lines 10-26), with
`fuel = max_retries - retries` so that `fuel = 0` is the loop exit.
`attempt k` tells whether the k-th call of the wrapped coroutine
returns a truthy value (for `import_cube`: the ack set
`cube_imported`); a raised exception behaves like a falsy return.
`jitter k` is the `random.uniform(0, 1)` sample added to the k-th
delay. Returns the decorator's result and the emitted actions. -/
def backoffLoop (attempt : Nat → Bool) (jitter : Nat → ℚ) (baseDelay : ℚ) :
    Nat → Nat → Bool × List ConnAction
  | 0, _ => (false, [])
  | fuel + 1, retries =>
      if attempt retries then (true, [.emitImport retries])
      else
        match fuel with
        | 0 => (false, [.emitImport retries])
        | _ + 1 =>
            let delay := baseDelay * 2 ^ (retries + 1) + jitter (retries + 1)
            let rest := backoffLoop attempt jitter baseDelay fuel (retries + 1)
            (rest.1, .emitImport retries :: .sleepFor delay :: rest.2)

/-- `import_cube` as decorated with
`@exponential_backoff(max_retries=10, base_delay=1)`
(src/services/draft_setup_manager.py lines 7 and 82). -/
def importCubeRun (attempt : Nat → Bool) (jitter : Nat → ℚ) : Bool × List ConnAction :=
  backoffLoop attempt jitter 1 10 0

/-- Terminal outcomes of one `keep_connection_alive` task. -/
inductive ConnOutcome where
  | connectFailed
  | importFailed
  | lostConnection
  | quorumReached
  | stillWaiting
deriving Repr, DecidableEq

/-- The `while self.other_users_count < 2` wait
(src/services/draft_setup_manager.py lines 126-139): at poll iteration
`i`, `users i` is the current other-user count and `conn i` whether the
socket is still connected. `fuel` bounds how many iterations we unfold
(the Python loop has no iteration cap; `stillWaiting` marks an
unfinished wait, which no claim is about). -/
def quorumWait (users : Nat → Nat) (conn : Nat → Bool) :
    Nat → Nat → ConnOutcome × List ConnAction
  | 0, _ => (.stillWaiting, [])
  | fuel + 1, i =>
      if users i ≥ 2 then (.quorumReached, [])
      else if conn i then
        let rest := quorumWait users conn fuel (i + 1)
        (rest.1, .emitGetUsers :: .sleepFor 5 :: rest.2)
      else (.lostConnection, [])

/-- `DraftSetupManager.keep_connection_alive`
(src/services/draft_setup_manager.py lines 110-152), as the sequential
task body: connect, then — unless the cube is already imported — run
the decorated `import_cube`; a falsy result ends the task; otherwise
wait for quorum. The `finally` block disconnects whenever the socket is
still connected (it is after a falsy import: the decorator exhausted
its retries without an exception path, and the exception path inside
`import_cube` disconnects itself). The function never re-enters the
connect call: no branch loops back. -/
def keepConnectionAlive (connectOk : Bool) (cubeImported : Bool)
    (attempt : Nat → Bool) (jitter : Nat → ℚ)
    (users : Nat → Nat) (conn : Nat → Bool) (pollFuel : Nat) :
    ConnOutcome × List ConnAction :=
  if connectOk then
    if cubeImported then
      let q := quorumWait users conn pollFuel 0
      (q.1, .connect :: q.2 ++ [.disconnect])
    else
      let imp := importCubeRun attempt jitter
      if imp.1 then
        let q := quorumWait users conn pollFuel 0
        (q.1, .connect :: imp.2 ++ q.2 ++ [.disconnect])
      else
        (.importFailed, .connect :: imp.2 ++ [.disconnect])
  else (.connectFailed, [])

/-- The `importCube` emissions contained in a trace. -/
def importCount (tr : List ConnAction) : Nat :=
  tr.countP (fun a => match a with | .emitImport _ => true | _ => false)

/-- The `connect` calls contained in a trace. -/
def connectCount (tr : List ConnAction) : Nat :=
  tr.countP (fun a => match a with | .connect => true | _ => false)

/-- The sleep durations contained in a trace, in order. -/
def sleepsOf (tr : List ConnAction) : List ℚ :=
  tr.filterMap (fun a => match a with | .sleepFor d => some d | _ => none)

end DraftBot

namespace DraftBot

/-! ## Serialization (src/main.py `to_dict` / `update_from_dict`,
`save_sessions_to_file` / `load_sessions_from_file`) -/

/-- A Python dict key as it appears around the JSON layer: the live
sessions use `int` keys (user ids, match numbers), while `json.load`
only ever produces `str` keys, because `json.dump` coerces every
non-string key with `str()` (CPython `json` documented behavior). -/
inductive PyKey where
  | pint (n : Int)
  | pstr (s : String)
deriving Repr, DecidableEq

/-- `json.dump` key coercion: `int` keys become their decimal string. -/
def jsonKey : PyKey → PyKey
  | .pint n => .pstr (toString n)
  | .pstr s => .pstr s

/-- A session timestamp attribute: `datetime` (as set by
`DraftSession.__init__`, src/main.py lines 37-38) or the `float` POSIX
stamp `start_draft` overwrites it with (src/main.py line 1022), each
carried as its tick count. -/
inductive PyTime where
  | dt (ticks : Int)
  | fl (stamp : Int)
deriving Repr, DecidableEq

/-- A serialized timestamp: `sstr t` stands for the ISO-8601 text of
the `datetime` with ticks `t` (`datetime.isoformat`, a faithful text
encoding that `datetime.fromisoformat` inverts), `snum x` for a raw
numeric stamp, which JSON stores as a number. -/
inductive SerTime where
  | sstr (ticks : Int)
  | snum (stamp : Int)
deriving Repr, DecidableEq

/-- `to_dict`'s timestamp handling (src/main.py lines 613-617):
`datetime` values are replaced by their `isoformat()` string; any other
value (the `float` case) passes through the dict comprehension
untouched. -/
def serializeTime : PyTime → SerTime
  | .dt t => .sstr t
  | .fl x => .snum x

/-- `update_from_dict`'s timestamp handling (src/main.py lines
626-631): a string value is parsed with `datetime.fromisoformat`;
anything else is assigned as-is. -/
def deserializeTime : SerTime → PyTime
  | .sstr t => .dt t
  | .snum x => .fl x

/-- The serialization-relevant fields of a `DraftSession`, with the
dict keys at their dynamic Python type: live sessions hold `int` keys
(`sign_ups[user_id]`, `match_results[match_number]`). -/
structure PySession where
  sign_ups : List (PyKey × String)
  team_a : List Int
  team_b : List Int
  match_results : List (PyKey × MatchResult)
  draft_start_time : PyTime
  deletion_time : PyTime
deriving Repr, DecidableEq

/-- One `save_sessions_to_file` / `load_sessions_from_file` cycle for a
single session (src/main.py lines 1094-1111): `to_dict` copies every
field (converting `datetime`s to ISO strings), `json.dump` writes the
dict — coercing each non-string dict key to a string — `json.load`
reads it back, and `update_from_dict` assigns each entry via `setattr`
(parsing only the two timestamp strings back to `datetime`). Lists of
ints and the non-key parts of the match-result entries survive JSON
unchanged. -/
def saveLoadSession (s : PySession) : PySession :=
  { sign_ups := s.sign_ups.map (fun p => (jsonKey p.1, p.2))
    team_a := s.team_a
    team_b := s.team_b
    match_results := s.match_results.map (fun p => (jsonKey p.1, p.2))
    draft_start_time := deserializeTime (serializeTime s.draft_start_time)
    deletion_time := deserializeTime (serializeTime s.deletion_time) }

end DraftBot

namespace DraftBot

/-- An all-empty session state, used to build concrete test states. -/
def blankState : SessionState :=
  { team_a := [], team_b := [], match_counter := 1, match_results := []
    matches_dict := [], sign_ups := [], ready_ready := [], ready_not_ready := []
    ready_no_response := [] }

/-- A 1v1 session whose single match carries a 0-0 score but a stale
non-null `winner_id` — the state produced by reporting 2-0 and then
"No Match Played" (src/main.py lines 577-597 never clear
`winner_id`). -/
def staleWinnerState : SessionState :=
  { blankState with
      team_a := [5]
      team_b := [6]
      match_results :=
        [(1, { player1_id := 5, player1_wins := 0, player2_id := 6, player2_wins := 0
               winner_id := some 5 })] }

/-! ## Dictionary lemmas -/

theorem dictInsert_of_fresh {β : Type} (d : List (Nat × β)) (k : Nat) (v : β)
    (h : ∀ p ∈ d, p.1 ≠ k) : dictInsert d k v = d ++ [(k, v)] := by
  unfold dictInsert
  rw [if_neg]
  simp only [List.any_eq_true, decide_eq_true_eq, not_exists]
  intro p
  exact fun hp => h p hp.1 hp.2

theorem find?_map_update {β : Type} (k : Nat) (v : β) :
    ∀ d : List (Nat × β), (∃ p ∈ d, p.1 = k) →
      List.find? (fun p => decide (p.1 = k))
          (d.map (fun p => if p.1 = k then (k, v) else p)) = some (k, v)
  | [], h => by simp at h
  | q :: d, h => by
      by_cases hqk : q.1 = k
      · simp only [List.map_cons, if_pos hqk]
        exact List.find?_cons_of_pos _ (by simp)
      · simp only [List.map_cons, if_neg hqk]
        rw [List.find?_cons_of_neg _ (by simp [hqk])]
        apply find?_map_update k v d
        rcases h with ⟨p, hp, hpk⟩
        rcases List.mem_cons.mp hp with rfl | hp'
        · exact absurd hpk hqk
        · exact ⟨p, hp', hpk⟩

theorem dictGet_dictInsert_self {β : Type} (d : List (Nat × β)) (k : Nat) (v : β) :
    dictGet (dictInsert d k v) k = some v := by
  unfold dictInsert dictGet
  by_cases h : d.any (fun p => decide (p.1 = k)) = true
  · rw [if_pos h]
    simp only [List.any_eq_true, decide_eq_true_eq] at h
    rw [find?_map_update k v d h]
  · rw [if_neg h, List.find?_append]
    have hd : List.find? (fun p => decide (p.1 = k)) d = none := by
      rw [List.find?_eq_none]
      intro x hx
      simp only [decide_eq_true_eq]
      intro hxk
      exact h (by simp only [List.any_eq_true, decide_eq_true_eq]; exact ⟨x, hx, hxk⟩)
    rw [hd]
    simp [List.find?]

/-! ## Closed form of one pairing round -/

theorem pairStep_fold (r : Nat) (st : SessionState)
    (hres : ∀ p ∈ st.match_results, p.1 < st.match_counter)
    (hmat : ∀ p ∈ st.matches_dict, p.1 < st.match_counter)
    (n : Nat) (rp : List (Nat × Nat × Nat)) :
    (List.range n).foldl (pairStep r) (st, rp) =
      ({ st with
          matches_dict := st.matches_dict ++ (List.range n).map
            (fun i => (st.match_counter + i,
              (st.team_a.getD i 0, st.team_b.getD ((i + r - 1) % st.team_b.length) 0)))
          match_results := st.match_results ++ (List.range n).map
            (fun i => (st.match_counter + i,
              mkResult (st.team_a.getD i 0) (st.team_b.getD ((i + r - 1) % st.team_b.length) 0)))
          match_counter := st.match_counter + n },
       rp ++ (List.range n).map
         (fun i => (st.team_a.getD i 0, st.team_b.getD ((i + r - 1) % st.team_b.length) 0,
           st.match_counter + i))) := by
  induction n with
  | zero => simp
  | succ n ih =>
      rw [List.range_succ, List.foldl_append, ih]
      simp only [List.foldl_cons, List.foldl_nil]
      have hfresh1 : ∀ p ∈ st.match_results ++ (List.range n).map
          (fun i => (st.match_counter + i,
            mkResult (st.team_a.getD i 0)
              (st.team_b.getD ((i + r - 1) % st.team_b.length) 0))),
          p.1 ≠ st.match_counter + n := by
        intro p hp
        rcases List.mem_append.mp hp with h1 | h2
        · have := hres p h1
          omega
        · obtain ⟨i, hi, rfl⟩ := List.mem_map.mp h2
          simp only [List.mem_range] at hi
          simp only []
          omega
      have hfresh2 : ∀ p ∈ st.matches_dict ++ (List.range n).map
          (fun i => (st.match_counter + i,
            (st.team_a.getD i 0, st.team_b.getD ((i + r - 1) % st.team_b.length) 0))),
          p.1 ≠ st.match_counter + n := by
        intro p hp
        rcases List.mem_append.mp hp with h1 | h2
        · have := hmat p h1
          omega
        · obtain ⟨i, hi, rfl⟩ := List.mem_map.mp h2
          simp only [List.mem_range] at hi
          simp only []
          omega
      simp only [pairStep, dictInsert_of_fresh _ _ _ hfresh1, dictInsert_of_fresh _ _ _ hfresh2]
      simp [List.range_succ, List.append_assoc]
      omega

/-- The pairings emitted for one round, in closed form: index `i` of
team A against index `(i + r - 1) % n` of team B, match numbers
counting on from `base`. -/
def roundPairsFrom (ta tb : List Nat) (r base : Nat) : List (Nat × Nat × Nat) :=
  (List.range ta.length).map
    (fun i => (ta.getD i 0, tb.getD ((i + r - 1) % tb.length) 0, base + i))

/-- The `match_results` entries created for one round, in closed form. -/
def roundEntriesFrom (ta tb : List Nat) (r base : Nat) : List (Nat × MatchResult) :=
  (List.range ta.length).map
    (fun i => (base + i, mkResult (ta.getD i 0) (tb.getD ((i + r - 1) % tb.length) 0)))

/-- The `matches` entries created for one round, in closed form. -/
def roundMatchesFrom (ta tb : List Nat) (r base : Nat) : List (Nat × (Nat × Nat)) :=
  (List.range ta.length).map
    (fun i => (base + i, (ta.getD i 0, tb.getD ((i + r - 1) % tb.length) 0)))

theorem doRound_spec (r : Nat) (st : SessionState)
    (hres : ∀ p ∈ st.match_results, p.1 < st.match_counter)
    (hmat : ∀ p ∈ st.matches_dict, p.1 < st.match_counter) :
    doRound r st =
      ({ st with
          matches_dict := st.matches_dict
            ++ roundMatchesFrom st.team_a st.team_b r st.match_counter
          match_results := st.match_results
            ++ roundEntriesFrom st.team_a st.team_b r st.match_counter
          match_counter := st.match_counter + st.team_a.length },
       roundPairsFrom st.team_a st.team_b r st.match_counter) := by
  unfold doRound
  rw [pairStep_fold r st hres hmat st.team_a.length []]
  simp [roundPairsFrom, roundEntriesFrom, roundMatchesFrom]

/-- `doRound_spec` with the session state split into its fields, for
rewriting against elaborated record literals. -/
theorem doRound_fields (r : Nat) (ta tb : List Nat) (c : Nat)
    (res : List (Nat × MatchResult)) (mat : List (Nat × (Nat × Nat)))
    (su : List (Nat × String)) (rr rnr rnor : List Nat)
    (hres : ∀ p ∈ res, p.1 < c) (hmat : ∀ p ∈ mat, p.1 < c) :
    doRound r ⟨ta, tb, c, res, mat, su, rr, rnr, rnor⟩ =
      (⟨ta, tb, c + ta.length, res ++ roundEntriesFrom ta tb r c,
        mat ++ roundMatchesFrom ta tb r c, su, rr, rnr, rnor⟩,
       roundPairsFrom ta tb r c) :=
  doRound_spec r ⟨ta, tb, c, res, mat, su, rr, rnr, rnor⟩ hres hmat

/-- A successful `calculate_pairings` call, in closed form: the checks
pass, the three rounds are emitted with consecutive match numbers from
the incoming `match_counter`, the old `match_results` are discarded,
and `matches` and `match_counter` are extended in step. -/
theorem calculatePairings_ok (s : SessionState)
    (hmat : ∀ p ∈ s.matches_dict, p.1 < s.match_counter)
    (h68 : s.team_a.length + s.team_b.length = 6 ∨ s.team_a.length + s.team_b.length = 8)
    (heq : s.team_a.length = s.team_b.length) :
    calculatePairings s = .ok
      ([(1, roundPairsFrom s.team_a s.team_b 1 s.match_counter),
        (2, roundPairsFrom s.team_a s.team_b 2 (s.match_counter + s.team_a.length)),
        (3, roundPairsFrom s.team_a s.team_b 3
              (s.match_counter + s.team_a.length + s.team_a.length))],
       { s with
          matches_dict := s.matches_dict
            ++ roundMatchesFrom s.team_a s.team_b 1 s.match_counter
            ++ roundMatchesFrom s.team_a s.team_b 2 (s.match_counter + s.team_a.length)
            ++ roundMatchesFrom s.team_a s.team_b 3
                 (s.match_counter + s.team_a.length + s.team_a.length)
          match_results := roundEntriesFrom s.team_a s.team_b 1 s.match_counter
            ++ roundEntriesFrom s.team_a s.team_b 2 (s.match_counter + s.team_a.length)
            ++ roundEntriesFrom s.team_a s.team_b 3
                 (s.match_counter + s.team_a.length + s.team_a.length)
          match_counter := s.match_counter + s.team_a.length + s.team_a.length
            + s.team_a.length }) := by
  have hkey : ∀ (r base : Nat), ∀ p ∈ roundEntriesFrom s.team_a s.team_b r base,
      base ≤ p.1 ∧ p.1 < base + s.team_a.length := by
    intro r base p hp
    simp only [roundEntriesFrom, List.mem_map, List.mem_range] at hp
    obtain ⟨i, hi, rfl⟩ := hp
    omega
  have hkeyM : ∀ (r base : Nat), ∀ p ∈ roundMatchesFrom s.team_a s.team_b r base,
      base ≤ p.1 ∧ p.1 < base + s.team_a.length := by
    intro r base p hp
    simp only [roundMatchesFrom, List.mem_map, List.mem_range] at hp
    obtain ⟨i, hi, rfl⟩ := hp
    omega
  have e1 := doRound_fields 1 s.team_a s.team_b s.match_counter [] s.matches_dict
    s.sign_ups s.ready_ready s.ready_not_ready s.ready_no_response
    (fun p hp => absurd hp (List.not_mem_nil p)) hmat
  have e2 := doRound_fields 2 s.team_a s.team_b (s.match_counter + s.team_a.length)
    ([] ++ roundEntriesFrom s.team_a s.team_b 1 s.match_counter)
    (s.matches_dict ++ roundMatchesFrom s.team_a s.team_b 1 s.match_counter)
    s.sign_ups s.ready_ready s.ready_not_ready s.ready_no_response
    (by
      intro p hp
      rcases List.mem_append.mp hp with h1 | h2
      · exact absurd h1 (List.not_mem_nil p)
      · have := hkey 1 s.match_counter p h2
        omega)
    (by
      intro p hp
      rcases List.mem_append.mp hp with h1 | h2
      · have := hmat p h1
        omega
      · have := hkeyM 1 s.match_counter p h2
        omega)
  have e3 := doRound_fields 3 s.team_a s.team_b
    (s.match_counter + s.team_a.length + s.team_a.length)
    (([] ++ roundEntriesFrom s.team_a s.team_b 1 s.match_counter)
      ++ roundEntriesFrom s.team_a s.team_b 2 (s.match_counter + s.team_a.length))
    ((s.matches_dict ++ roundMatchesFrom s.team_a s.team_b 1 s.match_counter)
      ++ roundMatchesFrom s.team_a s.team_b 2 (s.match_counter + s.team_a.length))
    s.sign_ups s.ready_ready s.ready_not_ready s.ready_no_response
    (by
      intro p hp
      rcases List.mem_append.mp hp with h1 | h2
      · rcases List.mem_append.mp h1 with h3 | h4
        · exact absurd h3 (List.not_mem_nil p)
        · have := hkey 1 s.match_counter p h4
          omega
      · have := hkey 2 (s.match_counter + s.team_a.length) p h2
        omega)
    (by
      intro p hp
      rcases List.mem_append.mp hp with h1 | h2
      · rcases List.mem_append.mp h1 with h3 | h4
        · have := hmat p h3
          omega
        · have := hkeyM 1 s.match_counter p h4
          omega
      · have := hkeyM 2 (s.match_counter + s.team_a.length) p h2
        omega)
  simp only [calculatePairings]
  rw [if_pos h68, if_pos heq]
  rw [e1, e2, e3]
  simp

theorem roundEntriesFrom_keys (ta tb : List Nat) (r base : Nat) :
    (roundEntriesFrom ta tb r base).map Prod.fst =
      (List.range ta.length).map (fun i => base + i) := by
  simp [roundEntriesFrom, List.map_map]

theorem range_three_blocks (c n : Nat) :
    (List.range (3 * n)).map (fun j => c + j) =
      (List.range n).map (fun i => c + i)
      ++ (List.range n).map (fun i => c + n + i)
      ++ (List.range n).map (fun i => c + n + n + i) := by
  have h3 : 3 * n = n + (n + n) := by ring
  rw [h3, List.range_add, List.range_add]
  simp only [List.map_append, List.map_map, List.append_assoc]
  congr 1
  congr 1
  · exact List.map_congr_left (fun i _ => by simp [Function.comp]; omega)
  · exact List.map_congr_left (fun i _ => by simp [Function.comp]; omega)

/-- A fresh `DraftSession` (src/main.py `__init__`: `match_counter = 1`,
empty dicts and buckets) whose two team rosters have been assigned. -/
def mkTeamsState (ta tb : List Nat) : SessionState :=
  ⟨ta, tb, 1, [], [], [], [], [], []⟩

/-- The team-B opponents a given player meets across all rounds of a
pairings dictionary, in round order. -/
def opponentsOf (prs : List (Nat × List (Nat × Nat × Nat))) (a : Nat) : List Nat :=
  ((prs.map Prod.snd).flatten.filter (fun t => t.1 = a)).map (fun t => t.2.1)

theorem map_getD_range : ∀ l : List Nat,
    (List.range l.length).map (fun i => l.getD i 0) = l
  | [] => rfl
  | a :: l => by
      show (List.range (l.length + 1)).map _ = _
      rw [List.range_succ_eq_map, List.map_cons, List.map_map]
      have hc : ((fun i => (a :: l).getD i 0) ∘ Nat.succ) = (fun i => l.getD i 0) := rfl
      rw [hc, map_getD_range l]
      rfl

theorem roundPairsFrom_fst (ta tb : List Nat) (r base : Nat) :
    (roundPairsFrom ta tb r base).map (fun t => t.1) = ta := by
  unfold roundPairsFrom
  rw [List.map_map]
  have hc : ((fun t : Nat × Nat × Nat => t.1) ∘ fun i =>
      (ta.getD i 0, tb.getD ((i + r - 1) % tb.length) 0, base + i)) =
      (fun i => ta.getD i 0) := rfl
  rw [hc, map_getD_range]

theorem roundPairsFrom_idx (ta tb : List Nat) (r base i : Nat) (hi : i < ta.length) :
    (roundPairsFrom ta tb r base)[i]? =
      some (ta.getD i 0, tb.getD ((i + r - 1) % tb.length) 0, base + i) := by
  unfold roundPairsFrom
  rw [List.getElem?_map, List.getElem?_range hi]
  rfl

theorem filter_range_eq_singleton (n i₀ : Nat) (p : Nat → Bool) (hi₀ : i₀ < n)
    (hp : ∀ i, i < n → (p i = true ↔ i = i₀)) :
    (List.range n).filter p = [i₀] := by
  induction n with
  | zero => omega
  | succ n ih =>
      rw [List.range_succ, List.filter_append]
      by_cases hlast : i₀ = n
      · have h1 : (List.range n).filter p = [] := by
          rw [List.filter_eq_nil_iff]
          intro a hai
          have ha' : a < n := List.mem_range.mp hai
          intro hc
          have := (hp a (by omega)).mp hc
          omega
        have h2 : p n = true := (hp n (by omega)).mpr (by omega)
        simp [h1, h2, hlast]
      · have hi₀' : i₀ < n := by omega
        rw [ih hi₀' (fun i hi => hp i (by omega))]
        have h2 : ¬ p n = true := by
          intro hc
          exact hlast ((hp n (by omega)).mp hc).symm
        simp [List.filter, h2]

theorem filter_roundPairs (ta tb : List Nat) (r base i₀ : Nat)
    (hA : ta.Nodup) (hi₀ : i₀ < ta.length) :
    (roundPairsFrom ta tb r base).filter (fun t => t.1 = ta.getD i₀ 0) =
      [(ta.getD i₀ 0, tb.getD ((i₀ + r - 1) % tb.length) 0, base + i₀)] := by
  unfold roundPairsFrom
  rw [List.filter_map]
  rw [filter_range_eq_singleton ta.length i₀ _ hi₀ ?_]
  · rfl
  · intro i hi
    simp only [Function.comp, decide_eq_true_eq]
    constructor
    · intro he
      rw [List.getD_eq_getElem ta 0 hi, List.getD_eq_getElem ta 0 hi₀] at he
      exact (List.Nodup.getElem_inj_iff hA).mp he
    · rintro rfl
      rfl

/-- C1 (amended): for equal-size teams of `n ∈ {3, 4}` distinct players
each, `calculate_pairings` succeeds with exactly 3 rounds (numbered
1, 2, 3); in round `r` the entries list team A in order (so each team-A
player appears exactly once per round) and index `i` pairs `team_a[i]`
with `team_b[(i + r - 1) % n]`; and across the 3 rounds every team-A
player meets exactly 3 distinct team-B members (not `n`: for `n = 4`
one opponent is never met — see the counterexample). -/
theorem calculatePairings_roundRobin (ta tb : List Nat) (n : Nat)
    (hn : n = 3 ∨ n = 4) (ha : ta.length = n) (hb : tb.length = n)
    (hA : ta.Nodup) (hB : tb.Nodup) :
    ∃ prs s',
      calculatePairings (mkTeamsState ta tb) = .ok (prs, s') ∧
      prs.map Prod.fst = [1, 2, 3] ∧
      (∀ r rp, (r, rp) ∈ prs →
        rp.map (fun t => t.1) = ta ∧
        (∀ a ∈ ta, (rp.map (fun t => t.1)).count a = 1) ∧
        (∀ i, i < n → ∃ m, rp[i]? =
          some (ta.getD i 0, tb.getD ((i + r - 1) % n) 0, m))) ∧
      (∀ a ∈ ta, (opponentsOf prs a).length = 3 ∧ (opponentsOf prs a).Nodup ∧
        ∀ b ∈ opponentsOf prs a, b ∈ tb) := by
  subst ha
  have hb' : tb.length = ta.length := by omega
  have h0 : 0 < tb.length := by omega
  refine ⟨_, _, calculatePairings_ok (mkTeamsState ta tb)
      (fun p hp => absurd hp (List.not_mem_nil p))
      (by show ta.length + tb.length = 6 ∨ ta.length + tb.length = 8; omega)
      (by show ta.length = tb.length; omega), ?_, ?_, ?_⟩
  · rfl
  · dsimp only [mkTeamsState]
    intro r rp hm
    simp only [List.mem_cons, List.not_mem_nil, or_false] at hm
    have hround : ∀ base : Nat, rp = roundPairsFrom ta tb r base →
        rp.map (fun t => t.1) = ta ∧
        (∀ a ∈ ta, (rp.map (fun t => t.1)).count a = 1) ∧
        (∀ i, i < ta.length → ∃ m, rp[i]? =
          some (ta.getD i 0, tb.getD ((i + r - 1) % ta.length) 0, m)) := by
      rintro base rfl
      refine ⟨roundPairsFrom_fst ta tb r base, ?_, ?_⟩
      · rw [roundPairsFrom_fst ta tb r base]
        intro a haa
        exact List.count_eq_one_of_mem hA haa
      · intro i hi
        refine ⟨base + i, ?_⟩
        rw [roundPairsFrom_idx ta tb r base i hi, hb']
    rcases hm with hm1 | hm2 | hm3
    · injection hm1 with hr hrp
      subst hr
      exact hround _ hrp
    · injection hm2 with hr hrp
      subst hr
      exact hround _ hrp
    · injection hm3 with hr hrp
      subst hr
      exact hround _ hrp
  · dsimp only [mkTeamsState]
    intro a ham
    obtain ⟨i₀, hi₀, ha0⟩ := List.mem_iff_getElem.mp ham
    have ha0' : a = ta.getD i₀ 0 := by
      rw [List.getD_eq_getElem ta 0 hi₀, ha0]
    subst ha0'
    have hopp : opponentsOf
        [(1, roundPairsFrom ta tb 1 1),
         (2, roundPairsFrom ta tb 2 (1 + ta.length)),
         (3, roundPairsFrom ta tb 3 (1 + ta.length + ta.length))]
        (ta.getD i₀ 0) =
        [tb.getD ((i₀ + 1 - 1) % tb.length) 0,
         tb.getD ((i₀ + 2 - 1) % tb.length) 0,
         tb.getD ((i₀ + 3 - 1) % tb.length) 0] := by
      unfold opponentsOf
      simp only [List.map_cons, List.map_nil, List.flatten_cons, List.flatten_nil,
        List.append_nil, List.filter_append]
      rw [filter_roundPairs ta tb 1 _ i₀ hA hi₀, filter_roundPairs ta tb 2 _ i₀ hA hi₀,
        filter_roundPairs ta tb 3 _ i₀ hA hi₀]
      rfl
    rw [hopp]
    have e1 : i₀ + 1 - 1 = i₀ := by omega
    have e2 : i₀ + 2 - 1 = i₀ + 1 := by omega
    have e3 : i₀ + 3 - 1 = i₀ + 2 := by omega
    have hm0 : i₀ % tb.length = i₀ := Nat.mod_eq_of_lt (by omega)
    rw [e1, e2, e3, hm0]
    have hmlt : ∀ k : Nat, (i₀ + k) % tb.length < tb.length := fun k => Nat.mod_lt _ h0
    have hgetne : ∀ j1 j2 : Nat, j1 < tb.length → j2 < tb.length → j1 ≠ j2 →
        tb.getD j1 0 ≠ tb.getD j2 0 := by
      intro j1 j2 hj1 hj2 hne he
      rw [List.getD_eq_getElem tb 0 hj1, List.getD_eq_getElem tb 0 hj2] at he
      exact hne ((List.Nodup.getElem_inj_iff hB).mp he)
    have hL : tb.length = 3 ∨ tb.length = 4 := by omega
    have hne1 : i₀ ≠ (i₀ + 1) % tb.length := by
      rcases hL with hL | hL <;> rw [hL] <;> omega
    have hne2 : i₀ ≠ (i₀ + 2) % tb.length := by
      rcases hL with hL | hL <;> rw [hL] <;> omega
    have hne3 : (i₀ + 1) % tb.length ≠ (i₀ + 2) % tb.length := by
      rcases hL with hL | hL <;> rw [hL] <;> omega
    have hv1 : tb.getD i₀ 0 ≠ tb.getD ((i₀ + 1) % tb.length) 0 :=
      hgetne _ _ (by omega) (hmlt 1) hne1
    have hv2 : tb.getD i₀ 0 ≠ tb.getD ((i₀ + 2) % tb.length) 0 :=
      hgetne _ _ (by omega) (hmlt 2) hne2
    have hv3 : tb.getD ((i₀ + 1) % tb.length) 0 ≠ tb.getD ((i₀ + 2) % tb.length) 0 :=
      hgetne _ _ (hmlt 1) (hmlt 2) hne3
    refine ⟨rfl, ?_, ?_⟩
    · simp only [List.nodup_cons, List.mem_cons, List.not_mem_nil, or_false,
        List.mem_singleton, List.nodup_nil, and_true, not_or]
      exact ⟨⟨hv1, hv2⟩, hv3, not_false⟩
    · intro b hbm
      simp only [List.mem_cons, List.not_mem_nil, or_false] at hbm
      rcases hbm with rfl | rfl | rfl
      · rw [List.getD_eq_getElem tb 0 (by omega)]
        exact List.getElem_mem _
      · rw [List.getD_eq_getElem tb 0 (hmlt 1)]
        exact List.getElem_mem _
      · rw [List.getD_eq_getElem tb 0 (hmlt 2)]
        exact List.getElem_mem _

theorem calculatePairings_roundRobin_witness :
    ∃ prs s',
      calculatePairings (mkTeamsState [1, 2, 3] [4, 5, 6]) = .ok (prs, s') ∧
      prs.map Prod.fst = [1, 2, 3] ∧
      (∀ r rp, (r, rp) ∈ prs →
        rp.map (fun t => t.1) = [1, 2, 3] ∧
        (∀ a ∈ ([1, 2, 3] : List Nat), (rp.map (fun t => t.1)).count a = 1) ∧
        (∀ i, i < 3 → ∃ m, rp[i]? =
          some (([1, 2, 3] : List Nat).getD i 0,
            ([4, 5, 6] : List Nat).getD ((i + r - 1) % 3) 0, m))) ∧
      (∀ a ∈ ([1, 2, 3] : List Nat),
        (opponentsOf prs a).length = 3 ∧ (opponentsOf prs a).Nodup ∧
        ∀ b ∈ opponentsOf prs a, b ∈ ([4, 5, 6] : List Nat)) :=
  calculatePairings_roundRobin [1, 2, 3] [4, 5, 6] 3 (Or.inl rfl) (by decide) (by decide)
    (by decide) (by decide)

/-- A fresh session with two premade teams of four distinct players. -/
def fourTeamsState : SessionState := mkTeamsState [0, 1, 2, 3] [4, 5, 6, 7]

/-- The pairings `calculate_pairings` emits for `fourTeamsState`. -/
def fourPairs : List (Nat × List (Nat × Nat × Nat)) :=
  match calculatePairings fourTeamsState with
  | .ok r => r.1
  | .error _ => []

/-- C1 counterexample: with two nodup teams of size n = 4 the call
succeeds, yet player 0 of team A is paired with only 3 distinct team-B
members across the 3 rounds — not n = 4 as the claim states (a player
plays one match per round, so 3 opponents is the most possible). -/
theorem calculatePairings_roundRobin_cex :
    fourTeamsState.team_a.length = 4 ∧ fourTeamsState.team_b.length = 4 ∧
    fourTeamsState.team_a.Nodup ∧ fourTeamsState.team_b.Nodup ∧
    (calculatePairings fourTeamsState).isOk = true ∧
    (0 : Nat) ∈ fourTeamsState.team_a ∧
    (opponentsOf fourPairs 0).dedup.length = 3 := by decide

/-- A fresh session with two premade teams of three. -/
def exTeams3 : SessionState := mkTeamsState [1, 2, 3] [4, 5, 6]

/-- The pairings dictionary `calculate_pairings` emits for `exTeams3`. -/
def exPairs3 : List (Nat × List (Nat × Nat × Nat)) :=
  [(1, [(1, 4, 1), (2, 5, 2), (3, 6, 3)]),
   (2, [(1, 5, 4), (2, 6, 5), (3, 4, 6)]),
   (3, [(1, 6, 7), (2, 4, 8), (3, 5, 9)])]

/-- The session state `calculate_pairings` leaves behind for `exTeams3`. -/
def exAfter3 : SessionState :=
  ⟨[1, 2, 3], [4, 5, 6], 10,
   [(1, mkResult 1 4), (2, mkResult 2 5), (3, mkResult 3 6),
    (4, mkResult 1 5), (5, mkResult 2 6), (6, mkResult 3 4),
    (7, mkResult 1 6), (8, mkResult 2 4), (9, mkResult 3 5)],
   [(1, (1, 4)), (2, (2, 5)), (3, (3, 6)),
    (4, (1, 5)), (5, (2, 6)), (6, (3, 4)),
    (7, (1, 6)), (8, (2, 4)), (9, (3, 5))],
   [], [], [], []⟩

/-- C5: a `calculate_pairings` call with a total player count other
than 6 or 8 fails with the unsupported-player-count error and leaves
every session field unchanged. -/
theorem calculatePairings_unsupported (s : SessionState)
    (h : s.team_a.length + s.team_b.length ≠ 6 ∧ s.team_a.length + s.team_b.length ≠ 8) :
    calculatePairings s = .error .unsupportedPlayerCount ∧
      applyCalculatePairings s = s := by
  have hcond : ¬(s.team_a.length + s.team_b.length = 6 ∨
      s.team_a.length + s.team_b.length = 8) := by
    rcases h with ⟨h1, h2⟩
    rintro (hc | hc) <;> [exact h1 hc; exact h2 hc]
  have herr : calculatePairings s = .error .unsupportedPlayerCount := by
    simp only [calculatePairings]
    rw [if_neg hcond]
  exact ⟨herr, by simp [applyCalculatePairings, herr]⟩

theorem calculatePairings_unsupported_witness :
    calculatePairings { blankState with team_a := [1, 2], team_b := [3, 4] } =
        .error .unsupportedPlayerCount ∧
      applyCalculatePairings { blankState with team_a := [1, 2], team_b := [3, 4] } =
        { blankState with team_a := [1, 2], team_b := [3, 4] } :=
  calculatePairings_unsupported _ (by decide)

/-- C10: after any successful `calculate_pairings` call the session's
`match_results` holds exactly the `3 * n` fresh match numbers
`match_counter, ..., match_counter + 3 * n - 1` (every previously
recorded result is discarded), each with zero wins for both players and
no winner, and `match_counter` has advanced by `3 * n`. -/
theorem calculatePairings_fresh_results (s : SessionState)
    (prs : List (Nat × List (Nat × Nat × Nat))) (s' : SessionState)
    (hmat : ∀ p ∈ s.matches_dict, p.1 < s.match_counter)
    (hok : calculatePairings s = .ok (prs, s')) :
    s'.match_results.map Prod.fst =
      (List.range (3 * s.team_a.length)).map (fun j => s.match_counter + j) ∧
    (∀ p ∈ s'.match_results,
      p.2.player1_wins = 0 ∧ p.2.player2_wins = 0 ∧ p.2.winner_id = none) ∧
    s'.match_counter = s.match_counter + 3 * s.team_a.length := by
  have h68 : s.team_a.length + s.team_b.length = 6 ∨
      s.team_a.length + s.team_b.length = 8 := by
    by_contra hc
    simp only [calculatePairings] at hok
    rw [if_neg hc] at hok
    exact Except.noConfusion hok
  have heq : s.team_a.length = s.team_b.length := by
    by_contra hc
    simp only [calculatePairings] at hok
    rw [if_pos h68, if_neg hc] at hok
    exact Except.noConfusion hok
  rw [calculatePairings_ok s hmat h68 heq] at hok
  obtain ⟨-, hs'⟩ := Prod.mk.injEq .. ▸ (Except.ok.inj hok)
  subst hs'
  refine ⟨?_, ?_, ?_⟩
  · show (roundEntriesFrom s.team_a s.team_b 1 s.match_counter
        ++ roundEntriesFrom s.team_a s.team_b 2 (s.match_counter + s.team_a.length)
        ++ roundEntriesFrom s.team_a s.team_b 3
             (s.match_counter + s.team_a.length + s.team_a.length)).map Prod.fst = _
    rw [List.map_append, List.map_append, roundEntriesFrom_keys, roundEntriesFrom_keys,
      roundEntriesFrom_keys, range_three_blocks]
  · intro p hp
    have hp' : p ∈ roundEntriesFrom s.team_a s.team_b 1 s.match_counter
        ++ roundEntriesFrom s.team_a s.team_b 2 (s.match_counter + s.team_a.length)
        ++ roundEntriesFrom s.team_a s.team_b 3
             (s.match_counter + s.team_a.length + s.team_a.length) := hp
    have hmk : ∀ (r base : Nat),
        p ∈ roundEntriesFrom s.team_a s.team_b r base →
        p.2.player1_wins = 0 ∧ p.2.player2_wins = 0 ∧ p.2.winner_id = none := by
      intro r base hmem
      simp only [roundEntriesFrom, List.mem_map, List.mem_range] at hmem
      obtain ⟨i, -, rfl⟩ := hmem
      exact ⟨rfl, rfl, rfl⟩
    rcases List.mem_append.mp hp' with h12 | h3
    · rcases List.mem_append.mp h12 with h1 | h2
      · exact hmk 1 _ h1
      · exact hmk 2 _ h2
    · exact hmk 3 _ h3
  · show s.match_counter + s.team_a.length + s.team_a.length + s.team_a.length = _
    omega

theorem calculatePairings_fresh_results_witness :
    exAfter3.match_results.map Prod.fst =
      (List.range (3 * exTeams3.team_a.length)).map (fun j => exTeams3.match_counter + j) ∧
    (∀ p ∈ exAfter3.match_results,
      p.2.player1_wins = 0 ∧ p.2.player2_wins = 0 ∧ p.2.winner_id = none) ∧
    exAfter3.match_counter = exTeams3.match_counter + 3 * exTeams3.team_a.length :=
  calculatePairings_fresh_results exTeams3 exPairs3 exAfter3 (by decide) (by decide)

/-- The `calculate_team_wins` loop body over explicit team lists, in
closed count form, for match lists whose `winner_id` is consistent with
the win counts (null exactly on equal wins, otherwise the strictly
leading player) and always on one of the two disjoint teams. -/
theorem teamWins_go (ta tb : List Nat) (hdisj : ∀ x ∈ ta, x ∉ tb) :
    ∀ l : List (Nat × MatchResult),
      (∀ p ∈ l,
        (p.2.winner_id = none ↔ p.2.player1_wins = p.2.player2_wins) ∧
        (∀ w, p.2.winner_id = some w →
          ((w = p.2.player1_id ∧ p.2.player2_wins < p.2.player1_wins) ∨
           (w = p.2.player2_id ∧ p.2.player1_wins < p.2.player2_wins))) ∧
        (∀ w, p.2.winner_id = some w → (w ∈ ta ∨ w ∈ tb))) →
      ∀ acc : Nat × Nat,
      l.foldl
        (fun acc p =>
          let m := p.2
          if m.player1_wins > m.player2_wins then
            if ta.contains m.player1_id then (acc.1 + 1, acc.2) else (acc.1, acc.2 + 1)
          else if m.player2_wins > m.player1_wins then
            if ta.contains m.player2_id then (acc.1 + 1, acc.2) else (acc.1, acc.2 + 1)
          else acc) acc =
      (acc.1 + l.countP (fun p =>
          match p.2.winner_id with | some w => ta.contains w | none => false),
       acc.2 + l.countP (fun p =>
          match p.2.winner_id with | some w => tb.contains w | none => false)) := by
  intro l
  induction l with
  | nil => intro _ acc; simp
  | cons q l ih =>
      intro h acc
      obtain ⟨⟨hq1, hq2, hq3⟩, hl⟩ := List.forall_mem_cons.mp h
      rw [List.foldl_cons, ih hl, List.countP_cons, List.countP_cons]
      simp only []
      rcases Nat.lt_trichotomy q.2.player1_wins q.2.player2_wins with hlt | heq | hgt
      · -- player 2 leads: winner is player2_id
        rw [if_neg (by omega), if_pos hlt]
        cases hwid : q.2.winner_id with
        | none => exact absurd (hq1.mp hwid) (by omega)
        | some w =>
            rcases hq2 w hwid with ⟨rfl, hc⟩ | ⟨rfl, -⟩
            · omega
            · simp only [hwid]
              by_cases hmem : ta.contains q.2.player2_id = true
              · have hmemP : q.2.player2_id ∈ ta := List.mem_of_elem_eq_true hmem
                have hnbP : q.2.player2_id ∉ tb := hdisj _ hmemP
                rw [if_pos hmem]
                simp [hmemP, hnbP, Prod.mk.injEq] <;> omega
              · have hmemP : q.2.player2_id ∉ ta := fun hc => hmem (List.elem_eq_true_of_mem hc)
                have hbP : q.2.player2_id ∈ tb := by
                  rcases hq3 _ hwid with hmt | hmt
                  · exact absurd hmt hmemP
                  · exact hmt
                rw [if_neg hmem]
                simp [hmemP, hbP, Prod.mk.injEq] <;> omega
      · -- equal wins: no winner, no credit
        rw [if_neg (by omega), if_neg (by omega)]
        have hwid : q.2.winner_id = none := hq1.mpr heq
        simp [hwid, Prod.mk.injEq]
      · -- player 1 leads: winner is player1_id
        rw [if_pos hgt]
        cases hwid : q.2.winner_id with
        | none => exact absurd (hq1.mp hwid) (by omega)
        | some w =>
            rcases hq2 w hwid with ⟨rfl, -⟩ | ⟨rfl, hc⟩
            · simp only [hwid]
              by_cases hmem : ta.contains q.2.player1_id = true
              · have hmemP : q.2.player1_id ∈ ta := List.mem_of_elem_eq_true hmem
                have hnbP : q.2.player1_id ∉ tb := hdisj _ hmemP
                rw [if_pos hmem]
                simp [hmemP, hnbP, Prod.mk.injEq] <;> omega
              · have hmemP : q.2.player1_id ∉ ta := fun hc => hmem (List.elem_eq_true_of_mem hc)
                have hbP : q.2.player1_id ∈ tb := by
                  rcases hq3 _ hwid with hmt | hmt
                  · exact absurd hmt hmemP
                  · exact hmt
                rw [if_neg hmem]
                simp [hmemP, hbP, Prod.mk.injEq] <;> omega
            · omega

/-- C3 (amended): in any session whose teams are disjoint and whose
recorded `winner_id`s are consistent with the win counts (null exactly
when the counts are equal, otherwise the strictly leading player, who is
on one of the two teams), `calculate_team_wins` attributes exactly one
win per non-null-winner match to the team containing that winner, and a
match with equal win counts (null winner) counts toward neither side.
Without the consistency hypothesis the claim fails, because the code
tallies by win counts and never reads `winner_id` — see the
counterexample. -/
theorem calculateTeamWins_by_winner (s : SessionState)
    (hdisj : ∀ x ∈ s.team_a, x ∉ s.team_b)
    (hcons : ∀ p ∈ s.match_results,
      (p.2.winner_id = none ↔ p.2.player1_wins = p.2.player2_wins) ∧
      (∀ w, p.2.winner_id = some w →
        ((w = p.2.player1_id ∧ p.2.player2_wins < p.2.player1_wins) ∨
         (w = p.2.player2_id ∧ p.2.player1_wins < p.2.player2_wins))) ∧
      (∀ w, p.2.winner_id = some w → (w ∈ s.team_a ∨ w ∈ s.team_b))) :
    calculateTeamWins s =
      (s.match_results.countP (fun p =>
         match p.2.winner_id with | some w => s.team_a.contains w | none => false),
       s.match_results.countP (fun p =>
         match p.2.winner_id with | some w => s.team_b.contains w | none => false)) := by
  unfold calculateTeamWins
  rw [teamWins_go s.team_a s.team_b hdisj s.match_results hcons (0, 0)]
  simp

/-- A 1v1 session whose single reported match has a winner consistent
with its 2-0 score, plus a drawn 1-1 match with no winner. -/
def winnerTallyState : SessionState :=
  ⟨[1], [2], 3,
   [(1, { player1_id := 1, player1_wins := 2, player2_id := 2, player2_wins := 0
          winner_id := some 1 }),
    (2, { player1_id := 1, player1_wins := 1, player2_id := 2, player2_wins := 1
          winner_id := none })],
   [], [], [], [], []⟩

theorem calculateTeamWins_by_winner_witness :
    calculateTeamWins winnerTallyState =
      (winnerTallyState.match_results.countP (fun p =>
         match p.2.winner_id with
         | some w => winnerTallyState.team_a.contains w | none => false),
       winnerTallyState.match_results.countP (fun p =>
         match p.2.winner_id with
         | some w => winnerTallyState.team_b.contains w | none => false)) :=
  calculateTeamWins_by_winner winnerTallyState (by decide) (by decide)

/-- C3 counterexample: `staleWinnerState` holds one match with a
non-null `winner_id = 1` whose winner sits on team A, yet the tally is
(0, 0) — the claimed "exactly one win for each match whose winner_id is
non-null" fails, because `calculate_team_wins` tallies by win counts
(here 0-0) and never reads `winner_id`. -/
theorem calculateTeamWins_by_winner_cex :
    staleWinnerState.match_results.countP (fun p => p.2.winner_id ≠ none) = 1 ∧
    (∀ p ∈ staleWinnerState.match_results, p.2.winner_id = some 5) ∧
    (5 : Nat) ∈ staleWinnerState.team_a ∧
    calculateTeamWins staleWinnerState = (0, 0) := by decide

/-- C2 (amended): reporting 2-0 (option "2-0-1") for an existing match
sets its `winner_id` to the non-null player-1 id; a subsequent 0-0
report ("No Match Played", option "0-0-0") resets both win counts to 0
but leaves `winner_id` unchanged — still the player-1 id, not null —
because the callback updates `winner_id` only when `winner != 0`. -/
theorem reportResult_report_then_noMatch (s : SessionState) (mn : Nat) (m : MatchResult)
    (h : dictGet s.match_results mn = some m) :
    dictGet (reportResult s mn 2 0 1).1.match_results mn =
      some { m with player1_wins := 2, player2_wins := 0,
                    winner_id := some m.player1_id } ∧
    dictGet (reportResult (reportResult s mn 2 0 1).1 mn 0 0 0).1.match_results mn =
      some { m with player1_wins := 0, player2_wins := 0,
                    winner_id := some m.player1_id } := by
  have e1 : reportResult s mn 2 0 1 =
      ({ s with match_results := (dictInsert s.match_results mn
          { m with player1_wins := 2, player2_wins := 0,
                   winner_id := some m.player1_id }) }, true) := by
    unfold reportResult
    rw [h]
    rfl
  have hget1 : dictGet (reportResult s mn 2 0 1).1.match_results mn =
      some { m with player1_wins := 2, player2_wins := 0,
                    winner_id := some m.player1_id } := by
    rw [e1]
    exact dictGet_dictInsert_self _ _ _
  refine ⟨hget1, ?_⟩
  have e2 : ∀ t : SessionState, dictGet t.match_results mn =
      some { m with player1_wins := 2, player2_wins := 0,
                    winner_id := some m.player1_id } →
      reportResult t mn 0 0 0 =
        ({ t with match_results := (dictInsert t.match_results mn
            { m with player1_wins := 0, player2_wins := 0,
                     winner_id := some m.player1_id }) }, true) := by
    intro t ht
    unfold reportResult
    rw [ht]
    rfl
  rw [e2 _ hget1]
  exact dictGet_dictInsert_self _ _ _

/-- A 1v1 session with one unreported match, number 1. -/
def reportCexBase : SessionState :=
  ⟨[5], [6], 2, [(1, mkResult 5 6)], [(1, (5, 6))], [], [], [], []⟩

theorem reportResult_report_then_noMatch_witness :
    dictGet (reportResult reportCexBase 1 2 0 1).1.match_results 1 =
      some { mkResult 5 6 with player1_wins := 2, player2_wins := 0,
                               winner_id := some (mkResult 5 6).player1_id } ∧
    dictGet (reportResult (reportResult reportCexBase 1 2 0 1).1 1 0 0 0).1.match_results 1 =
      some { mkResult 5 6 with player1_wins := 0, player2_wins := 0,
                               winner_id := some (mkResult 5 6).player1_id } :=
  reportResult_report_then_noMatch reportCexBase 1 (mkResult 5 6) (by decide)

/-- C2 counterexample: after a 2-0 report, the "No Match Played" (0-0)
report zeroes the win counts but `winner_id` remains `some 5` — it is
not cleared back to null as the claim states. -/
theorem reportResult_clear_cex :
    (reportResult reportCexBase 1 2 0 1).1.match_results =
      [(1, { player1_id := 5, player1_wins := 2, player2_id := 6, player2_wins := 0
             winner_id := some 5 })] ∧
    (reportResult (reportResult reportCexBase 1 2 0 1).1 1 0 0 0).1.match_results =
      [(1, { player1_id := 5, player1_wins := 0, player2_id := 6, player2_wins := 0
             winner_id := some 5 })] := by decide

/-- A session whose sign-up list is full, with eight distinct users. -/
def fullSignUps : SessionState :=
  ⟨[], [], 1, [], [],
   [(0, "p0"), (1, "p1"), (2, "p2"), (3, "p3"),
    (4, "p4"), (5, "p5"), (6, "p6"), (7, "p7")], [], [], []⟩

/-- A session with two sign-ups. -/
def twoSignUps : SessionState :=
  ⟨[], [], 1, [], [], [(1, "a"), (2, "b")], [], [], []⟩

/-- C6 (amended): with 8 or more sign-ups, every attempt — by anyone,
including a user already on the list — fails with Full and leaves
`sign_ups` unchanged (the fullness guard runs first, so an
already-signed-up user on a full list gets Full, not AlreadySignedUp);
when the list is not full, an attempt by an already-present user fails
with AlreadySignedUp and changes nothing. -/
theorem signUp_guards (s : SessionState) (u : Nat) (nm : String) :
    (8 ≤ s.sign_ups.length →
      signUp s u nm = .error .full ∧ applySignUp s u nm = s) ∧
    (s.sign_ups.length < 8 → s.sign_ups.any (fun p => p.1 = u) = true →
      signUp s u nm = .error .alreadySignedUp ∧ applySignUp s u nm = s) := by
  constructor
  · intro h8
    have herr : signUp s u nm = .error .full := by
      unfold signUp
      rw [if_pos h8]
    exact ⟨herr, by simp [applySignUp, herr]⟩
  · intro hlt hmem
    have herr : signUp s u nm = .error .alreadySignedUp := by
      unfold signUp
      rw [if_neg (by omega), if_pos hmem]
    exact ⟨herr, by simp [applySignUp, herr]⟩

theorem signUp_guards_witness :
    (signUp fullSignUps 3 "again" = .error .full ∧
      applySignUp fullSignUps 3 "again" = fullSignUps) ∧
    (signUp twoSignUps 1 "again" = .error .alreadySignedUp ∧
      applySignUp twoSignUps 1 "again" = twoSignUps) :=
  ⟨(signUp_guards fullSignUps 3 "again").1 (by decide),
   (signUp_guards twoSignUps 1 "again").2 (by decide) (by decide)⟩

/-- C6 counterexample: user 3 is already signed up on the full list,
yet their repeated attempt fails with Full rather than AlreadySignedUp,
because the fullness check precedes the membership check. -/
theorem signUp_present_cex :
    (3, "p3") ∈ fullSignUps.sign_ups ∧
    signUp fullSignUps 3 "again" = .error .full ∧
    signUp fullSignUps 3 "again" ≠ .error .alreadySignedUp := by decide

/-- C9 (amended): `initiate_ready_check` carries no once-only guard.
Every invocation succeeds and (re)seeds `no_response` with exactly the
current sign-up keys, leaving `ready`, `not_ready`, and `sign_ups`
untouched; in particular a re-invocation is accepted and reseeds
`no_response` — even a user who had answered Ready is put back into
`no_response` while also remaining in `ready`. The only at-most-once
protection is the caller disabling the UI button (src/main.py lines
776-779). -/
theorem initiateReadyCheck_spec (s : SessionState) :
    (initiateReadyCheck s).ready_no_response = s.sign_ups.map Prod.fst ∧
    (initiateReadyCheck s).ready_ready = s.ready_ready ∧
    (initiateReadyCheck s).ready_not_ready = s.ready_not_ready ∧
    (initiateReadyCheck s).sign_ups = s.sign_ups ∧
    initiateReadyCheck (initiateReadyCheck s) = initiateReadyCheck s ∧
    (∀ u, u ∈ s.sign_ups.map Prod.fst →
      u ∈ (initiateReadyCheck
        (handleReadyInteraction (initiateReadyCheck s) u)).ready_no_response) :=
  ⟨rfl, rfl, rfl, rfl, rfl, fun _ hu => hu⟩

theorem initiateReadyCheck_spec_witness :
    (initiateReadyCheck twoSignUps).ready_no_response =
      twoSignUps.sign_ups.map Prod.fst ∧
    (1 : Nat) ∈ (initiateReadyCheck
      (handleReadyInteraction (initiateReadyCheck twoSignUps) 1)).ready_no_response :=
  ⟨(initiateReadyCheck_spec twoSignUps).1,
   (initiateReadyCheck_spec twoSignUps).2.2.2.2.2 1 (by decide)⟩

/-- C9 counterexample: after the first ready check user 1 answers
Ready (leaving `no_response = [2]`); a second `initiate_ready_check`
call is not rejected — it succeeds and reseeds `no_response` to both
sign-ups, while user 1 also stays in `ready`. -/
theorem initiateReadyCheck_rerun_cex :
    (handleReadyInteraction (initiateReadyCheck twoSignUps) 1).ready_no_response = [2] ∧
    (initiateReadyCheck
      (handleReadyInteraction (initiateReadyCheck twoSignUps) 1)).ready_no_response
      = [1, 2] ∧
    (initiateReadyCheck
      (handleReadyInteraction (initiateReadyCheck twoSignUps) 1)).ready_ready = [1] := by
  decide

/-! ## Registry eviction lemmas -/

theorem insertByTs_perm (k : SessionId) :
    ∀ l : List SessionId, List.Perm (insertByTs k l) (k :: l)
  | [] => List.Perm.refl _
  | x :: xs => by
      unfold insertByTs
      by_cases h : x.ts < k.ts
      · rw [if_pos h]
        exact (List.Perm.cons x (insertByTs_perm k xs)).trans (List.Perm.swap k x xs)
      · rw [if_neg h]

theorem sortByTs_perm : ∀ l : List SessionId, List.Perm (sortByTs l) l
  | [] => List.Perm.refl _
  | k :: ks =>
      (insertByTs_perm k (sortByTs ks)).trans (List.Perm.cons k (sortByTs_perm ks))

theorem insertByTs_sorted (k : SessionId) :
    ∀ l : List SessionId, l.Pairwise (fun a b => a.ts ≤ b.ts) →
      (insertByTs k l).Pairwise (fun a b => a.ts ≤ b.ts)
  | [], _ => List.Pairwise.cons (by simp) List.Pairwise.nil
  | x :: xs, h => by
      obtain ⟨hx, hxs⟩ := List.pairwise_cons.mp h
      unfold insertByTs
      by_cases hlt : x.ts < k.ts
      · rw [if_pos hlt]
        refine List.pairwise_cons.mpr ⟨?_, insertByTs_sorted k xs hxs⟩
        intro y hy
        rcases List.mem_cons.mp ((insertByTs_perm k xs).mem_iff.mp hy) with rfl | hy'
        · omega
        · exact hx y hy'
      · rw [if_neg hlt]
        refine List.pairwise_cons.mpr ⟨?_, h⟩
        intro y hy
        rcases List.mem_cons.mp hy with rfl | hy'
        · omega
        · have := hx y hy'
          omega

theorem sortByTs_sorted : ∀ l : List SessionId,
    (sortByTs l).Pairwise (fun a b => a.ts ≤ b.ts)
  | [] => List.Pairwise.nil
  | k :: ks => insertByTs_sorted k (sortByTs ks) (sortByTs_sorted ks)

theorem regErase_spec (old : SessionId) :
    ∀ reg : List (SessionId × SessionState),
      (reg.map Prod.fst).Nodup → old ∈ reg.map Prod.fst →
      (regErase reg old).length + 1 = reg.length ∧
      (∀ k, k ∈ (regErase reg old).map Prod.fst ↔
        (k ∈ reg.map Prod.fst ∧ k ≠ old))
  | [], _, hmem => by simp at hmem
  | q :: reg, hkeys, hmem => by
      obtain ⟨hq, hkeys'⟩ := List.pairwise_cons.mp hkeys
      by_cases hqo : q.1 = old
      · have hnot : old ∉ reg.map Prod.fst := fun hc => (hq old hc) hqo
        have hfilter : regErase (q :: reg) old = reg := by
          unfold regErase
          rw [List.filter_cons]
          have hqfalse : ¬ (decide (q.1 ≠ old) = true) := by simp [hqo]
          rw [if_neg hqfalse]
          rw [List.filter_eq_self]
          intro p hp
          simp only [decide_eq_true_eq]
          intro hpk
          exact hnot (hpk ▸ List.mem_map_of_mem Prod.fst hp)
        rw [hfilter]
        refine ⟨by simp, ?_⟩
        intro k
        constructor
        · intro hk
          refine ⟨List.mem_cons_of_mem _ hk, ?_⟩
          rintro rfl
          exact hnot hk
        · rintro ⟨hk, hkne⟩
          rcases List.mem_cons.mp hk with hkq | hk'
          · exact absurd (hkq.trans hqo) hkne
          · exact hk'
      · have hmem' : old ∈ reg.map Prod.fst := by
          rcases List.mem_cons.mp hmem with hko | hk'
          · exact absurd hko.symm hqo
          · exact hk'
        obtain ⟨ihlen, ihmem⟩ := regErase_spec old reg hkeys' hmem'
        have hfilter : regErase (q :: reg) old = q :: regErase reg old := by
          unfold regErase
          rw [List.filter_cons]
          rw [if_pos (by simp [hqo])]
        rw [hfilter]
        refine ⟨by simp [← ihlen], ?_⟩
        intro k
        simp only [List.map_cons, List.mem_cons]
        constructor
        · rintro (rfl | hk)
          · exact ⟨Or.inl rfl, hqo⟩
          · obtain ⟨h1, h2⟩ := (ihmem k).mp hk
            exact ⟨Or.inr h1, h2⟩
        · rintro ⟨rfl | hk, hkne⟩
          · exact Or.inl rfl
          · exact Or.inr ((ihmem k).mpr ⟨hk, hkne⟩)

/-- C4: with the registry at or above its 20-session cap, distinct
timestamps embedded in the session ids, unique keys, and a fresh new
id, `add_session` pops exactly the session whose id embeds the
(strictly) earliest timestamp and stores the new session: the result is
the old registry minus that one entry plus the new one, every other
session survives, and the total count is unchanged. -/
theorem addSession_evicts_oldest (reg : List (SessionId × SessionState))
    (sid : SessionId) (sess : SessionState)
    (hlen : 20 ≤ reg.length)
    (hkeys : (reg.map Prod.fst).Nodup)
    (hts : ((reg.map Prod.fst).map SessionId.ts).Nodup)
    (hfresh : sid ∉ reg.map Prod.fst) :
    ∃ old, oldestSessionId reg = some old ∧
      old ∈ reg.map Prod.fst ∧
      (∀ k ∈ reg.map Prod.fst, k ≠ old → old.ts < k.ts) ∧
      addSession reg sid sess = regErase reg old ++ [(sid, sess)] ∧
      (∀ k ∈ reg.map Prod.fst, k ≠ old →
        k ∈ (addSession reg sid sess).map Prod.fst) ∧
      old ∉ (addSession reg sid sess).map Prod.fst ∧
      sid ∈ (addSession reg sid sess).map Prod.fst ∧
      (addSession reg sid sess).length = reg.length := by
  have hperm := sortByTs_perm (reg.map Prod.fst)
  have hne : sortByTs (reg.map Prod.fst) ≠ [] := by
    intro hc
    have := hperm.length_eq
    rw [hc] at this
    simp at this
    omega
  obtain ⟨old, rest, hsort⟩ :
      ∃ old rest, sortByTs (reg.map Prod.fst) = old :: rest := by
    cases hs : sortByTs (reg.map Prod.fst) with
    | nil => exact absurd hs hne
    | cons a t => exact ⟨a, t, rfl⟩
  have hhead : oldestSessionId reg = some old := by
    unfold oldestSessionId
    rw [hsort]
    rfl
  have holdmem : old ∈ reg.map Prod.fst :=
    hperm.mem_iff.mp (hsort ▸ List.mem_cons_self old rest)
  have hmin : ∀ k ∈ reg.map Prod.fst, k ≠ old → old.ts < k.ts := by
    intro k hk hkne
    have hksort : k ∈ old :: rest := hsort ▸ hperm.mem_iff.mpr hk
    rcases List.mem_cons.mp hksort with rfl | hkrest
    · exact absurd rfl hkne
    · have hle : old.ts ≤ k.ts := by
        have hpw := sortByTs_sorted (reg.map Prod.fst)
        rw [hsort] at hpw
        exact (List.pairwise_cons.mp hpw).1 k hkrest
      have hne' : old.ts ≠ k.ts := by
        intro hc
        exact hkne (List.inj_on_of_nodup_map hts hk holdmem hc.symm)
      omega
  obtain ⟨helen, hemem⟩ := regErase_spec old reg hkeys holdmem
  have hadd : addSession reg sid sess = regErase reg old ++ [(sid, sess)] := by
    unfold addSession
    rw [if_pos hlen, hhead]
    unfold regInsert
    rw [if_neg ?_]
    simp only [List.any_eq_true, decide_eq_true_eq, not_exists]
    intro p
    rintro ⟨hp, rfl⟩
    exact hfresh ((hemem p.1).mp (List.mem_map_of_mem Prod.fst hp)).1
  have holdsid : old ≠ sid := by
    rintro rfl
    exact hfresh holdmem
  refine ⟨old, hhead, holdmem, hmin, hadd, ?_, ?_, ?_, ?_⟩
  · intro k hk hkne
    rw [hadd, List.map_append]
    exact List.mem_append_left _ ((hemem k).mpr ⟨hk, hkne⟩)
  · rw [hadd, List.map_append]
    intro hc
    rcases List.mem_append.mp hc with h1 | h2
    · exact ((hemem old).mp h1).2 rfl
    · simp at h2
      exact holdsid h2
  · rw [hadd, List.map_append]
    exact List.mem_append_right _ (by simp)
  · rw [hadd, List.length_append]
    simp only [List.length_singleton]
    omega

/-- A registry at its 20-session cap; the entry with uid 119 embeds the
earliest timestamp (ts = 31). -/
def reg20 : List (SessionId × SessionState) :=
  (List.range 20).map (fun i => (⟨100 + i, 50 - i⟩, blankState))

theorem addSession_evicts_oldest_witness :
    ∃ old, oldestSessionId reg20 = some old ∧
      old ∈ reg20.map Prod.fst ∧
      (∀ k ∈ reg20.map Prod.fst, k ≠ old → old.ts < k.ts) ∧
      addSession reg20 ⟨7, 999⟩ blankState =
        regErase reg20 old ++ [(⟨7, 999⟩, blankState)] ∧
      (∀ k ∈ reg20.map Prod.fst, k ≠ old →
        k ∈ (addSession reg20 ⟨7, 999⟩ blankState).map Prod.fst) ∧
      old ∉ (addSession reg20 ⟨7, 999⟩ blankState).map Prod.fst ∧
      (⟨7, 999⟩ : SessionId) ∈ (addSession reg20 ⟨7, 999⟩ blankState).map Prod.fst ∧
      (addSession reg20 ⟨7, 999⟩ blankState).length = reg20.length :=
  addSession_evicts_oldest reg20 ⟨7, 999⟩ blankState
    (by decide) (by decide) (by decide) (by decide)

/-! ## Keep-alive connector lemmas -/

theorem importCount_append (a b : List ConnAction) :
    importCount (a ++ b) = importCount a + importCount b :=
  List.countP_append _ _ _

theorem quorumWait_no_imports (users : Nat → Nat) (conn : Nat → Bool) :
    ∀ fuel i, importCount (quorumWait users conn fuel i).2 = 0
  | 0, _ => rfl
  | fuel + 1, i => by
      unfold quorumWait
      by_cases hu : users i ≥ 2
      · rw [if_pos hu]
        rfl
      · rw [if_neg hu]
        by_cases hcn : conn i = true
        · rw [if_pos hcn]
          have hrec := quorumWait_no_imports users conn fuel (i + 1)
          simp only [importCount, List.countP_cons] at hrec ⊢
          simp [hrec]
        · rw [if_neg hcn]
          rfl

theorem backoffLoop_importCount (attempt : Nat → Bool) (jitter : Nat → ℚ) (base : ℚ) :
    ∀ fuel retries, importCount (backoffLoop attempt jitter base fuel retries).2 ≤ fuel
  | 0, _ => by simp [backoffLoop, importCount]
  | fuel + 1, retries => by
      unfold backoffLoop
      by_cases ha : attempt retries = true
      · rw [if_pos ha]
        show importCount [ConnAction.emitImport retries] ≤ fuel + 1
        simp [importCount]
      · rw [if_neg ha]
        cases fuel with
        | zero =>
            show importCount [ConnAction.emitImport retries] ≤ 0 + 1
            simp [importCount]
        | succ f =>
            have hrec := backoffLoop_importCount attempt jitter base (f + 1) (retries + 1)
            simp only [importCount] at hrec ⊢
            simp [List.countP_cons]
            omega

/-- The action trace of the decorated `import_cube` when all ten
attempts come back falsy: ten emissions with a doubling backoff sleep
(`base · 2^k + jitter k`, base = 1, k = 1..9) between consecutive
attempts, and no sleep after the last. -/
def allFailTrace (jitter : Nat → ℚ) : List ConnAction :=
  [.emitImport 0, .sleepFor (2 + jitter 1), .emitImport 1, .sleepFor (4 + jitter 2),
   .emitImport 2, .sleepFor (8 + jitter 3), .emitImport 3, .sleepFor (16 + jitter 4),
   .emitImport 4, .sleepFor (32 + jitter 5), .emitImport 5, .sleepFor (64 + jitter 6),
   .emitImport 6, .sleepFor (128 + jitter 7), .emitImport 7, .sleepFor (256 + jitter 8),
   .emitImport 8, .sleepFor (512 + jitter 9), .emitImport 9]

/-- C7: over any run of `keep_connection_alive`, the cube-import
request is emitted at most 10 times; and when every attempt ends
without acknowledgment, the decorated call makes exactly 10 attempts
with sleeps of `1 · 2^k + jitter k` seconds (k = 1..9) between
consecutive attempts — base 1 s, doubling per attempt, plus the random
jitter sample — after which the task ends as a terminal import failure:
it connected exactly once (no outer reconnect) and its last action is
the disconnect. -/
theorem keepConnectionAlive_backoff (attempt : Nat → Bool) (jitter : Nat → ℚ)
    (users : Nat → Nat) (conn : Nat → Bool) (pollFuel : Nat)
    (connectOk cubeImported : Bool) :
    importCount
      (keepConnectionAlive connectOk cubeImported attempt jitter users conn pollFuel).2
      ≤ 10 ∧
    ((∀ k, attempt k = false) →
      (keepConnectionAlive true false attempt jitter users conn pollFuel).1 =
        .importFailed ∧
      importCount
        (keepConnectionAlive true false attempt jitter users conn pollFuel).2 = 10 ∧
      connectCount
        (keepConnectionAlive true false attempt jitter users conn pollFuel).2 = 1 ∧
      (keepConnectionAlive true false attempt jitter users conn pollFuel).2.getLast? =
        some .disconnect ∧
      sleepsOf (keepConnectionAlive true false attempt jitter users conn pollFuel).2 =
        (List.range' 1 9).map (fun k => 2 ^ k + jitter k)) := by
  constructor
  · cases connectOk with
    | false => simp [keepConnectionAlive, importCount]
    | true =>
        cases cubeImported with
        | true =>
            have hq := quorumWait_no_imports users conn pollFuel 0
            simp only [keepConnectionAlive, if_pos rfl]
            simp only [importCount, List.countP_cons, List.countP_append] at hq ⊢
            simp [hq]
        | false =>
            have hq := quorumWait_no_imports users conn pollFuel 0
            have hb := backoffLoop_importCount attempt jitter 1 10 0
            simp only [keepConnectionAlive, if_pos rfl]
            by_cases himp : (importCubeRun attempt jitter).1 = true
            · rw [if_pos himp]
              simp only [importCubeRun] at hb
              simp only [importCount, List.countP_cons, List.countP_append] at hq hb ⊢
              simp only [importCubeRun]
              simp
              omega
            · rw [if_neg himp]
              simp only [importCubeRun] at hb
              simp only [importCount, List.countP_cons, List.countP_append] at hb ⊢
              simp only [importCubeRun]
              simp
              omega
  · intro hfail
    have htrace : importCubeRun attempt jitter = (false, allFailTrace jitter) := by
      simp only [importCubeRun, backoffLoop, hfail, allFailTrace]
      norm_num
    have hk : keepConnectionAlive true false attempt jitter users conn pollFuel =
        (.importFailed, .connect :: allFailTrace jitter ++ [.disconnect]) := by
      simp [keepConnectionAlive, htrace]
    rw [hk]
    refine ⟨rfl, rfl, rfl, rfl, ?_⟩
    simp only [sleepsOf, allFailTrace, List.filterMap]
    norm_num [List.range']

theorem keepConnectionAlive_backoff_witness :
    importCount (keepConnectionAlive true false (fun _ => false) (fun _ => 0)
      (fun _ => 0) (fun _ => true) 3).2 ≤ 10 ∧
    ((keepConnectionAlive true false (fun _ => false) (fun _ => 0) (fun _ => 0)
        (fun _ => true) 3).1 = .importFailed ∧
      importCount (keepConnectionAlive true false (fun _ => false) (fun _ => 0)
        (fun _ => 0) (fun _ => true) 3).2 = 10 ∧
      connectCount (keepConnectionAlive true false (fun _ => false) (fun _ => 0)
        (fun _ => 0) (fun _ => true) 3).2 = 1 ∧
      (keepConnectionAlive true false (fun _ => false) (fun _ => 0) (fun _ => 0)
        (fun _ => true) 3).2.getLast? = some .disconnect ∧
      sleepsOf (keepConnectionAlive true false (fun _ => false) (fun _ => 0)
        (fun _ => 0) (fun _ => true) 3).2 =
        (List.range' 1 9).map (fun k => 2 ^ k + 0)) :=
  ⟨(keepConnectionAlive_backoff (fun _ => false) (fun _ => 0) (fun _ => 0)
      (fun _ => true) 3 true false).1,
   (keepConnectionAlive_backoff (fun _ => false) (fun _ => 0) (fun _ => 0)
      (fun _ => true) 3 true false).2 (fun _ => rfl)⟩

/-- A live session as `start_draft` builds it: an int-keyed sign-up
entry, int team ids, a float start stamp and a `datetime` deletion
time. -/
def exPySession : PySession :=
  { sign_ups := [(.pint 123, "Alice")], team_a := [123], team_b := []
    match_results := [], draft_start_time := .fl 1700000000
    deletion_time := .dt 55 }

/-- C8 (code bug): one save/load cycle does not round-trip the session.
`json.dump` coerces the int `sign_ups` key 123 to the string "123", and
`update_from_dict` assigns it back verbatim, so the reloaded mapping
differs from the original ({123: ...} ≠ {"123": ...} in Python); the
list and timestamp fields do round-trip. After a reload the code's own
int-keyed lookups (`user_id in session.sign_ups`,
`match_results.get(match_number)`) miss every entry. -/
theorem saveLoadSession_key_stringification :
    saveLoadSession exPySession ≠ exPySession ∧
    (saveLoadSession exPySession).sign_ups = [(.pstr "123", "Alice")] ∧
    exPySession.sign_ups = [(.pint 123, "Alice")] ∧
    (saveLoadSession exPySession).team_a = exPySession.team_a ∧
    (saveLoadSession exPySession).team_b = exPySession.team_b ∧
    (saveLoadSession exPySession).draft_start_time = exPySession.draft_start_time ∧
    (saveLoadSession exPySession).deletion_time = exPySession.deletion_time := by
  decide

end DraftBot

section Scratch
open DraftBot

-- Spec §8 example scenario: team_a=[a0..a3], team_b=[b0..b3] gives
-- rounds {1: [(a0,b0,1),...], 2: [(a0,b1,5),...], 3: [(a0,b2,9),...]}.
example :
    calculatePairings { blankState with team_a := [10, 11, 12, 13], team_b := [20, 21, 22, 23] } =
      .ok ([(1, [(10, 20, 1), (11, 21, 2), (12, 22, 3), (13, 23, 4)]),
            (2, [(10, 21, 5), (11, 22, 6), (12, 23, 7), (13, 20, 8)]),
            (3, [(10, 22, 9), (11, 23, 10), (12, 20, 11), (13, 21, 12)])],
           { blankState with
              team_a := [10, 11, 12, 13], team_b := [20, 21, 22, 23]
              match_counter := 13
              matches_dict := [(1, (10, 20)), (2, (11, 21)), (3, (12, 22)), (4, (13, 23)),
                          (5, (10, 21)), (6, (11, 22)), (7, (12, 23)), (8, (13, 20)),
                          (9, (10, 22)), (10, (11, 23)), (11, (12, 20)), (12, (13, 21))]
              match_results :=
                [(1, mkResult 10 20), (2, mkResult 11 21), (3, mkResult 12 22), (4, mkResult 13 23),
                 (5, mkResult 10 21), (6, mkResult 11 22), (7, mkResult 12 23), (8, mkResult 13 20),
                 (9, mkResult 10 22), (10, mkResult 11 23), (11, mkResult 12 20), (12, mkResult 13 21)] }) := by
  decide

example :
    calculatePairings { blankState with team_a := [1, 2], team_b := [3, 4] } =
      .error .unsupportedPlayerCount := by decide

-- Report 2-0 then 0-0: the winner_id set by the first report survives
-- the "No Match Played" report (winner == 0 skips the update).
example :
    (reportResult
      ((reportResult
          { blankState with match_results := [(1, mkResult 5 6)] } 1 2 0 1).1)
      1 0 0 0).1.match_results =
    [(1, { player1_id := 5, player1_wins := 0, player2_id := 6, player2_wins := 0,
           winner_id := some 5 })] := by decide

-- Tally ignores winner_id: 0-0 with a stale winner contributes nothing.
example : calculateTeamWins staleWinnerState = (0, 0) := by decide

-- A 9th sign-up fails Full; an 8th signer retrying also fails Full.
example :
    signUp { blankState with
      sign_ups := (List.range 8).map (fun i => (i, "p")) } 99 "x" = .error .full := by decide

example :
    signUp { blankState with
      sign_ups := (List.range 8).map (fun i => (i, "p")) } 3 "x" = .error .full := by decide

example :
    signUp { blankState with sign_ups := [(1, "a"), (2, "b")] } 1 "a" =
      .error .alreadySignedUp := by decide

-- Ready check: re-invocation reseeds no_response and keeps ready.
example :
    (initiateReadyCheck
      (handleReadyInteraction
        (initiateReadyCheck { blankState with sign_ups := [(1, "a"), (2, "b")] }) 1)).ready_no_response
      = [1, 2] := by decide

example :
    (initiateReadyCheck
      (handleReadyInteraction
        (initiateReadyCheck { blankState with sign_ups := [(1, "a"), (2, "b")] }) 1)).ready_ready
      = [1] := by decide

-- Registry eviction: with 20 sessions, the earliest timestamp goes.
example :
    addSession ((List.range 20).map (fun i => (⟨100 + i, 50 - i⟩, blankState)))
        ⟨7, 999⟩ blankState =
      ((List.range 20).map (fun i => (⟨100 + i, 50 - i⟩, blankState))).take 19
        ++ [(⟨7, 999⟩, blankState)] := by decide

-- Backoff: all ten attempts fail, nine doubling sleeps in between.
example :
    importCubeRun (fun _ => false) (fun _ => 0) =
      (false,
        [.emitImport 0, .sleepFor 2, .emitImport 1, .sleepFor 4, .emitImport 2,
         .sleepFor 8, .emitImport 3, .sleepFor 16, .emitImport 4, .sleepFor 32,
         .emitImport 5, .sleepFor 64, .emitImport 6, .sleepFor 128, .emitImport 7,
         .sleepFor 256, .emitImport 8, .sleepFor 512, .emitImport 9]) := by
  norm_num [importCubeRun, backoffLoop]

example :
    keepConnectionAlive true false (fun _ => false) (fun _ => 0) (fun _ => 0)
        (fun _ => true) 3 =
      (.importFailed,
        .connect :: (importCubeRun (fun _ => false) (fun _ => 0)).2 ++ [.disconnect]) := by
  norm_num [keepConnectionAlive, importCubeRun, backoffLoop]

-- Serialization: int dict keys come back as strings.
example :
    saveLoadSession
      { sign_ups := [(.pint 123, "Alice")], team_a := [123], team_b := [],
        match_results := [], draft_start_time := .fl 1700000000,
        deletion_time := .dt 55 } =
    { sign_ups := [(.pstr "123", "Alice")], team_a := [123], team_b := [],
      match_results := [], draft_start_time := .fl 1700000000,
      deletion_time := .dt 55 } := by decide

end Scratch
